import Mathlib

/-!
Shallow embedding of `vue-component-docgen` (src/index.js): the configuration
resolver, the type formatter, the HTML escaper, the Markdown and HTML
component renderers, the per-file processing loop and the Markdown index
generator, together with theorems checking the specification's claims.

Conventions for translating the JavaScript:
* machine strings are Lean `String`s; a field that JavaScript may leave
  `undefined` is an `Option`;
* a JavaScript truthiness test on a string field (`x || y`, `if (x)`) treats
  both `undefined` and the empty string as false, so the helpers `jsOr`,
  `orDash`, `jsTruthy` below spell that out;
* a list-valued field that the code only ever tests with
  `x && x.length > 0` is embedded as a plain list (absent ≡ empty), since
  every absent/empty case takes the same branch in the source;
* code that would throw a `TypeError` (dereferencing a missing `prop.type`)
  is embedded in the `Option` monad: `none` is the thrown exception.
-/

namespace VueDocgen

/-- The apostrophe character (ASCII 39). -/
def squote : Char := Char.ofNat 39

/-- The backquote character (ASCII 96). -/
def backquote : Char := Char.ofNat 96

/-- JavaScript `a || b` on an optional string `a` and a string `b`:
`undefined` and `""` are falsy. -/
def jsOr (a : Option String) (b : String) : String :=
  match a with
  | some s => if s.isEmpty then b else s
  | none => b

/-- JavaScript `x || '-'` on an optional string, the pervasive
description-cell fallback. -/
def orDash (a : Option String) : String :=
  jsOr a "-"

/-- JavaScript truthiness of an optional string. -/
def jsTruthy (a : Option String) : Bool :=
  match a with
  | some s => !s.isEmpty
  | none => false

/-- `String.prototype.replace(/c/g, rep)` for a single-character pattern,
on the character list. -/
def replaceChar (c : Char) (rep : List Char) : List Char → List Char
  | [] => []
  | x :: xs => (if x = c then rep else [x]) ++ replaceChar c rep xs

/-- `String.prototype.replace(/c/g, rep)` on strings. -/
def replaceCharS (c : Char) (rep : String) (s : String) : String :=
  ⟨replaceChar c rep.data s.data⟩

/-- `escapeHtml` (src/index.js lines 163-170): the five global replacements
`&`→`&amp;`, `<`→`&lt;`, `>`→`&gt;`, `"`→`&quot;`, `'`→`&#039;`,
applied in that order. -/
def escapeHtml (str : String) : String :=
  replaceCharS squote "&#039;"
    (replaceCharS '"' "&quot;"
      (replaceCharS '>' "&gt;"
        (replaceCharS '<' "&lt;"
          (replaceCharS '&' "&amp;" str))))

/-- Type descriptor as consumed by `formatType`: a `name` (possibly absent)
and a list of nested element descriptors (the code only tests
`type.elements && type.elements.length`, so an absent list is embedded as
`[]`). -/
inductive TypeDesc where
  | mk (name : Option String) (elements : List TypeDesc)

/-- The `name` field of a type descriptor. -/
def TypeDesc.name : TypeDesc → Option String
  | .mk n _ => n

/-- The `elements` field of a type descriptor. -/
def TypeDesc.elements : TypeDesc → List TypeDesc
  | .mk _ es => es

mutual
/-- `formatType` (src/index.js lines 135-143): a descriptor named `union`
with a non-empty element list renders as its recursively formatted elements
joined with an (escaped, for Markdown) pipe; anything else renders as
`type.name || ''`. -/
def formatType : TypeDesc → Bool → String
  | .mk name elements, isMarkdown =>
    if name = some "union" ∧ ¬elements.isEmpty then
      String.intercalate (if isMarkdown then " \\| " else " | ")
        (formatTypeList elements isMarkdown)
    else
      name.getD ""

/-- The element-wise map in `formatType`'s union branch
(`type.elements.map(element => formatType(element, isMarkdown))`). -/
def formatTypeList : List TypeDesc → Bool → List String
  | [], _ => []
  | t :: ts, isMarkdown => formatType t isMarkdown :: formatTypeList ts isMarkdown
end

/-- `formatType(prop.type, isMarkdown)` when `prop.type` may be absent:
dereferencing `type.name` on `undefined` throws, embedded as `none`. -/
def formatTypeOpt (type : Option TypeDesc) (isMarkdown : Bool) : Option String :=
  type.map (fun t => formatType t isMarkdown)

/-- One entry of `docData.tags.examples`. -/
structure Example where
  title : Option String
  content : Option String

/-- `docData.tags`: the renderers only read `tags.examples`, and only test
`tags && tags.examples && tags.examples.length > 0`, so the absent cases are
embedded as the empty list. -/
structure Tags where
  examples : List Example

/-- A prop's `defaultValue` object (`{ value: string }`). -/
structure DefaultValue where
  value : String

/-- One value of the `docData.props` mapping. -/
structure PropDoc where
  name : String
  type : Option TypeDesc
  defaultValue : Option DefaultValue
  description : Option String

/-- One entry of an expose item's `tags` list. -/
structure Tag where
  title : String
  description : Option String

/-- One entry of `docData.expose`. -/
structure ExposeItem where
  name : String
  tags : List Tag
  description : Option String

/-- The `type` object of an event parameter (`{ names: string[] }`). -/
structure EvType where
  names : List String

/-- One entry of an event's `properties` list. -/
structure EventParam where
  name : String
  type : Option EvType
  description : Option String

/-- One entry of `docData.events`. -/
structure EventDoc where
  name : Option String
  properties : List EventParam
  description : Option String

/-- One value of the `docData.slots` mapping. -/
structure SlotDoc where
  name : String
  description : Option String

/-- A component document as returned by the external extractor and consumed
by the renderers.  `props` and `slots` stand for `Object.values` of the
respective mappings in insertion order; a falsy `displayName` (absent or
empty) is embedded as `""`. -/
structure DocData where
  displayName : String
  description : Option String
  tags : Tags
  props : List PropDoc
  expose : List ExposeItem
  events : List EventDoc
  slots : List SlotDoc

/-- `getExposeType` (src/index.js lines 150-156): `'-'` when the item has no
tags or no tag titled `type`; otherwise that tag's `description` (which may
itself be absent, hence the `Option` result). -/
def getExposeType (exposeItem : ExposeItem) : Option String :=
  if exposeItem.tags.isEmpty then some "-"
  else
    match exposeItem.tags.find? (fun tag => tag.title == "type") with
    | some typeTag => typeTag.description
    | none => some "-"

/-- `formatEventParams` (src/index.js lines 178-197). -/
def formatEventParams (properties : List EventParam) (isMarkdown : Bool) : String :=
  if properties.isEmpty then "-"
  else
    String.intercalate (if isMarkdown then "<br>" else ", ")
      (properties.map fun prop =>
        let type :=
          match prop.type with
          | some t =>
            if t.names.isEmpty then "-"
            else String.intercalate (if isMarkdown then " \\| " else " | ") t.names
          | none => "-"
        let typeDisplay :=
          if isMarkdown then "`" ++ type ++ "`" else "<code>" ++ type ++ "</code>"
        let desc :=
          match prop.description with
          | some s => if s.isEmpty then "" else " - " ++ s
          | none => ""
        prop.name ++ ": " ++ typeDisplay ++ desc)

/-! ### Markdown renderer (src/index.js lines 204-289) -/

/-- The example block of `generateComponentMarkdown`: subheading (title or
`示例 N`, 1-indexed) and an `html`-fenced code block with the raw content. -/
def mdExampleBlock (p : Nat × Example) : String :=
  "### " ++ jsOr p.2.title ("示例 " ++ toString (p.1 + 1)) ++ "\n\n"
    ++ "```html\n" ++ jsOr p.2.content "" ++ "\n```\n\n"

/-- The examples section of the Markdown renderer. -/
def mdExamplesSection (examples : List Example) : String :=
  if examples.isEmpty then ""
  else "## 组件示例\n\n" ++ String.join (examples.enum.map mdExampleBlock)

/-- The default-value cell of the Markdown props table: the value
backtick-quoted with every literal backtick backslash-escaped
(`prop.defaultValue.value.replace(/`/g, '\\`')`), or a dash. -/
def mdDefaultCell (prop : PropDoc) : String :=
  match prop.defaultValue with
  | some dv => "`" ++ replaceCharS backquote "\\`" dv.value ++ "`"
  | none => "-"

/-- One row of the Markdown props table; `none` when `prop.type` is absent
(the source would throw inside `formatType`). -/
def mdPropRow (prop : PropDoc) : Option String :=
  (formatTypeOpt prop.type true).map fun formattedType =>
    "| " ++ prop.name ++ " | " ++ ("`" ++ formattedType ++ "`") ++ " | "
      ++ mdDefaultCell prop ++ " | " ++ orDash prop.description ++ " |\n"

/-- The props section of the Markdown renderer. -/
def mdPropsSection (props : List PropDoc) : Option String :=
  if props.isEmpty then some ""
  else
    (props.mapM mdPropRow).map fun rows =>
      "## Props\n\n| 名称 | 类型 | 默认值 | 描述 |\n|------|------|--------|------|\n"
        ++ String.join rows ++ "\n"

/-- One row of the Markdown expose table. -/
def mdExposeRow (item : ExposeItem) : String :=
  let type := getExposeType item
  let typeDisplay := if jsTruthy type then "`" ++ type.getD "" ++ "`" else "-"
  "| " ++ item.name ++ " | " ++ typeDisplay ++ " | " ++ orDash item.description ++ " |\n"

/-- The expose section of the Markdown renderer. -/
def mdExposeSection (expose : List ExposeItem) : String :=
  if expose.isEmpty then ""
  else
    "## Expose (暴露的方法和属性)\n\n| 名称 | 类型 | 描述 |\n|------|------|------|\n"
      ++ String.join (expose.map mdExposeRow) ++ "\n"

/-- One row of the Markdown events table. -/
def mdEventRow (event : EventDoc) : String :=
  "| " ++ jsOr event.name "-" ++ " | " ++ formatEventParams event.properties true
    ++ " | " ++ orDash event.description ++ " |\n"

/-- The events section of the Markdown renderer. -/
def mdEventsSection (events : List EventDoc) : String :=
  if events.isEmpty then ""
  else
    "## Events\n\n| 名称 | 参数 | 描述 |\n|------|------|------|\n"
      ++ String.join (events.map mdEventRow) ++ "\n"

/-- One row of the Markdown slots table. -/
def mdSlotRow (slot : SlotDoc) : String :=
  "| " ++ slot.name ++ " | " ++ orDash slot.description ++ " |\n"

/-- The slots section of the Markdown renderer. -/
def mdSlotsSection (slots : List SlotDoc) : String :=
  if slots.isEmpty then ""
  else "## Slots\n\n| 名称 | 描述 |\n|------|------|\n" ++ String.join (slots.map mdSlotRow) ++ "\n"

/-- `generateComponentMarkdown` (src/index.js lines 204-289); `none` embeds
the `TypeError` thrown when some prop lacks a type descriptor. -/
def generateComponentMarkdown (docData : DocData) : Option String :=
  (mdPropsSection docData.props).map fun propsSection =>
    "# " ++ docData.displayName ++ "\n\n"
      ++ (if jsTruthy docData.description then
            "## 组件描述\n" ++ (docData.description.getD "") ++ "\n\n"
          else "")
      ++ mdExamplesSection docData.tags.examples
      ++ propsSection
      ++ mdExposeSection docData.expose
      ++ mdEventsSection docData.events
      ++ mdSlotsSection docData.slots

/-! ### HTML renderer (src/index.js lines 298-448) -/

/-- The fixed head of the generated HTML page (lines 299-326), ending with
the `<h1>` holding the display name. -/
def htmlHeader (docName componentName displayName : String) : String :=
  "<!DOCTYPE html>\n<html lang=\"en\">\n<head>\n"
    ++ "    <meta charset=\"UTF-8\">\n"
    ++ "    <meta name=\"viewport\" content=\"width=device-width, initial-scale=1.0\">\n"
    ++ "    <title>" ++ componentName ++ " - " ++ docName ++ "</title>\n"
    ++ "    <style>\n"
    ++ "        body \x7b font-family: Arial, sans-serif; max-width: 800px; margin: 0 auto; padding: 20px; \x7d\n"
    ++ "        h1 \x7b color: #2c3e50; border-bottom: 2px solid #3498db; padding-bottom: 10px; \x7d\n"
    ++ "        h2 \x7b color: #3498db; margin-top: 30px; \x7d\n"
    ++ "        h3 \x7b color: #2c3e50; margin-top: 20px; \x7d\n"
    ++ "        .description \x7b font-size: 1.1em; line-height: 1.6; margin: 20px 0; padding: 15px; background-color: #f8f9fa; border-left: 4px solid #3498db; \x7d\n"
    ++ "        .example-container \x7b margin: 20px 0; \x7d\n"
    ++ "        .example-title \x7b font-weight: bold; margin-bottom: 10px; \x7d\n"
    ++ "        .code-block \x7b font-family: monospace; background-color: #f8f9fa; padding: 15px; border-radius: 4px; overflow-x: auto; font-size: 0.9em; \x7d\n"
    ++ "        table \x7b width: 100%; border-collapse: collapse; margin: 16px 0; \x7d\n"
    ++ "        td, th \x7b padding: 12px 8px; text-align: left; border: 1px solid #ddd; \x7d\n"
    ++ "        th \x7b background-color: #f2f2f2; font-weight: bold; \x7d\n"
    ++ "        tr:nth-child(even) \x7b background-color: #f9f9f9; \x7d\n"
    ++ "        .back-link \x7b margin-bottom: 20px; display: inline-block; \x7d\n"
    ++ "        code \x7b background-color: #f0f0f0; padding: 2px 4px; border-radius: 3px; \x7d\n"
    ++ "        .param-item \x7b margin-bottom: 4px; \x7d\n"
    ++ "        .param-item:last-child \x7b margin-bottom: 0; \x7d\n"
    ++ "    </style>\n</head>\n<body>\n"
    ++ "    <div class=\"back-link\"><a href=\"index.html\">← 返回组件列表</a></div>\n"
    ++ "    <h1>" ++ displayName ++ "</h1>"

/-- The description block of the HTML renderer (line 330), emitted only when
`docData.description` is truthy and holding the description verbatim. -/
def htmlDescSection (description : Option String) : String :=
  if jsTruthy description then
    "<div class=\"description\">" ++ description.getD "" ++ "</div>"
  else ""

/-- One example block of the HTML renderer (lines 338-342): the code content
passes through `escapeHtml` before landing in the `<pre><code>` block. -/
def htmlExampleBlock (p : Nat × Example) : String :=
  "\n            <div class=\"example-container\">\n                <h3 class=\"example-title\">"
    ++ jsOr p.2.title ("示例 " ++ toString (p.1 + 1))
    ++ "</h3>\n                "
    ++ ("<pre class=\"code-block\"><code>" ++ escapeHtml (jsOr p.2.content "") ++ "</code></pre>")
    ++ "\n            </div>"

/-- The examples section of the HTML renderer. -/
def htmlExamplesSection (examples : List Example) : String :=
  if examples.isEmpty then ""
  else "<h2>组件示例</h2>" ++ String.join (examples.enum.map htmlExampleBlock)

/-- One row of the HTML props table (lines 361-367); `none` when `prop.type`
is absent. -/
def htmlPropRow (prop : PropDoc) : Option String :=
  (formatTypeOpt prop.type false).map fun formattedType =>
    "\n            <tr>\n                <td>" ++ prop.name
      ++ "</td>\n                <td><code>" ++ formattedType
      ++ "</code></td>\n                <td>"
      ++ (match prop.defaultValue with
          | some dv => "<code>" ++ dv.value ++ "</code>"
          | none => "-")
      ++ "</td>\n                <td>" ++ orDash prop.description
      ++ "</td>\n            </tr>"

/-- The props section of the HTML renderer (lines 347-371). -/
def htmlPropsSection (props : List PropDoc) : Option String :=
  if props.isEmpty then some ""
  else
    (props.mapM htmlPropRow).map fun rows =>
      "\n        <h2>Props</h2>\n        <table>\n            <tr>\n                <th>名称</th>\n                <th>类型</th>\n                <th>默认值</th>\n                <th>描述</th>\n            </tr>"
        ++ String.join rows ++ "</table>"

/-- One row of the HTML expose table (lines 386-391). -/
def htmlExposeRow (item : ExposeItem) : String :=
  let type := getExposeType item
  "\n            <tr>\n                <td>" ++ item.name
    ++ "</td>\n                <td>"
    ++ (if jsTruthy type then "<code>" ++ type.getD "" ++ "</code>" else "-")
    ++ "</td>\n                <td>" ++ orDash item.description
    ++ "</td>\n            </tr>"

/-- The expose section of the HTML renderer (lines 374-395). -/
def htmlExposeSection (expose : List ExposeItem) : String :=
  if expose.isEmpty then ""
  else
    "\n        <h2>Expose (暴露的方法和属性)</h2>\n        <table>\n            <tr>\n                <th>名称</th>\n                <th>类型</th>\n                <th>描述</th>\n            </tr>"
      ++ String.join (expose.map htmlExposeRow) ++ "</table>"

/-- One row of the HTML events table (lines 411-416). -/
def htmlEventRow (event : EventDoc) : String :=
  "\n            <tr>\n                <td>" ++ jsOr event.name "-"
    ++ "</td>\n                <td>" ++ formatEventParams event.properties false
    ++ "</td>\n                <td>" ++ orDash event.description
    ++ "</td>\n            </tr>"

/-- The events section of the HTML renderer (lines 398-420). -/
def htmlEventsSection (events : List EventDoc) : String :=
  if events.isEmpty then ""
  else
    "\n        <h2>Events</h2>\n        <table>\n            <tr>\n                <th>名称</th>\n                <th>参数</th>\n                <th>描述</th>\n            </tr>"
      ++ String.join (events.map htmlEventRow) ++ "</table>"

/-- One row of the HTML slots table (lines 433-437). -/
def htmlSlotRow (slot : SlotDoc) : String :=
  "\n            <tr>\n                <td>" ++ slot.name
    ++ "</td>\n                <td>" ++ orDash slot.description
    ++ "</td>\n            </tr>"

/-- The slots section of the HTML renderer (lines 423-441). -/
def htmlSlotsSection (slots : List SlotDoc) : String :=
  if slots.isEmpty then ""
  else
    "\n        <h2>Slots</h2>\n        <table>\n            <tr>\n                <th>名称</th>\n                <th>描述</th>\n            </tr>"
      ++ String.join (slots.map htmlSlotRow) ++ "</table>"

/-- `generateComponentHtml` (src/index.js lines 298-448); `none` embeds the
`TypeError` thrown when some prop lacks a type descriptor. -/
def generateComponentHtml (docData : DocData) (docName componentName : String) :
    Option String :=
  (htmlPropsSection docData.props).map fun propsSection =>
    htmlHeader docName componentName docData.displayName
      ++ htmlDescSection docData.description
      ++ htmlExamplesSection docData.tags.examples
      ++ propsSection
      ++ htmlExposeSection docData.expose
      ++ htmlEventsSection docData.events
      ++ htmlSlotsSection docData.slots
      ++ "\n</body>\n</html>"

/-! ### Configuration resolver (src/index.js lines 14-57) -/

/-- The `customContent` map; `none` stands for an absent key (a JavaScript
object without that property). -/
structure CustomContent where
  md : Option String
  html : Option String
deriving DecidableEq

/-- The built-in default configuration object `config` (lines 14-26). -/
structure Config where
  outDir : String
  componentsDir : String
  docName : String
  docType : String
  docDescription : String
  customContent : CustomContent
deriving DecidableEq

/-- The default configuration values (lines 14-26): both custom-content keys
present with value `""`. -/
def config : Config :=
  { outDir := "dist/component-doc"
    componentsDir := "src/components"
    docName := "Vue Component API Documentation"
    docType := "html"
    docDescription := ""
    customContent := ⟨some "", some ""⟩ }

/-- A parsed `component.doc.json` override: every field optional. -/
structure CustomConfig where
  outDir : Option String
  componentsDir : Option String
  docName : Option String
  docType : Option String
  docDescription : Option String
  customContent : Option CustomContent

/-- The empty override (a `\x7b\x7d` config file). -/
def CustomConfig.empty : CustomConfig :=
  ⟨none, none, none, none, none, none⟩

/-- The state of the `component.doc.json` file when `loadConfig` runs:
absent, present but not valid JSON (`msg` is the parse error's message), or
parsed into an override object. -/
inductive ConfigFileState where
  | missing
  | invalid (msg : String)
  | parsed (customConfig : CustomConfig)

/-- `Object.assign(config, customConfig)` (line 38): every key present in
the override replaces the base value, including the whole `customContent`
object. -/
def objectAssign (base : Config) (customConfig : CustomConfig) : Config :=
  { outDir := customConfig.outDir.getD base.outDir
    componentsDir := customConfig.componentsDir.getD base.componentsDir
    docName := customConfig.docName.getD base.docName
    docType := customConfig.docType.getD base.docType
    docDescription := customConfig.docDescription.getD base.docDescription
    customContent := customConfig.customContent.getD base.customContent }

/-- The object spread `\x7b ...a, ...b \x7d` on two custom-content maps:
keys present in `b` win, keys absent in `b` fall back to `a`. -/
def spreadMerge (a b : CustomContent) : CustomContent :=
  ⟨b.md <|> a.md, b.html <|> a.html⟩

/-- `loadConfig` (src/index.js lines 34-57) as a pure function from the
config-file state to the resolved configuration plus the list of
warning/error log lines it prints.  Note the source first runs
`Object.assign` (replacing `customContent` wholly) and only then merges
`config.customContent` — by now the override's own map — with the
override's map. -/
def loadConfig : ConfigFileState → Config × List String
  | .missing => (config, [])
  | .invalid msg => (config, ["加载配置文件失败: " ++ msg])
  | .parsed customConfig =>
    let c1 := objectAssign config customConfig
    let c2 :=
      match customConfig.customContent with
      | some occ => { c1 with customContent := spreadMerge c1.customContent occ }
      | none => c1
    if c2.docType = "html" ∨ c2.docType = "md" then (c2, [])
    else ({ c2 with docType := "html" },
          ["无效的docType配置: " ++ c2.docType ++ "，将使用默认值html"])

/-! ### Main loop (src/index.js lines 476-505) and Markdown index
(lines 510-538) -/

/-- One entry of the `components` index list (line 486-489). -/
structure Component where
  name : String
  description : String
deriving DecidableEq

/-- The observable result of the per-file loop: the files written (path and
content), the accumulated index entries, and the per-file log lines. -/
structure RunAcc where
  outputs : List (String × String)
  components : List Component
  logs : List String
deriving DecidableEq

/-- `path.resolve(dir, name)`: Node's resolver, modelled as plain joining of
the (relative) name onto the directory. -/
def pathResolve (dir name : String) : String :=
  dir ++ "/" ++ name

/-- The body of the `for (const file of vueFiles)` loop (lines 476-505),
taking each file path together with the result of `getComponentDoc`
(`none` embeds a thrown/parse-failed extraction, which the adapter turns
into `null`).  A file whose document is `null` or has a falsy `displayName`
is skipped with a log line; otherwise its page is rendered (in the `Option`
monad: a renderer throw aborts the run) and recorded. -/
def processFiles (docType docName outDir : String) :
    List (String × Option DocData) → Option RunAcc
  | [] => some ⟨[], [], []⟩
  | (file, docOpt) :: rest =>
    match docOpt with
    | none =>
      (processFiles docType docName outDir rest).map fun r =>
        ⟨r.outputs, r.components, ("跳过无效组件文件: " ++ file) :: r.logs⟩
    | some docData =>
      if docData.displayName.isEmpty then
        (processFiles docType docName outDir rest).map fun r =>
          ⟨r.outputs, r.components, ("跳过无效组件文件: " ++ file) :: r.logs⟩
      else
        let componentName := docData.displayName
        let outputFile :=
          pathResolve outDir (componentName ++ if docType = "md" then ".md" else ".html")
        (if docType = "md" then generateComponentMarkdown docData
         else generateComponentHtml docData docName componentName).bind fun content =>
          (processFiles docType docName outDir rest).map fun r =>
            ⟨(outputFile, content) :: r.outputs,
             ⟨componentName, jsOr docData.description ""⟩ :: r.components,
             ("已生成组件文档: " ++ outputFile) :: r.logs⟩

/-- One entry of the Markdown index list (lines 526-534): the bulleted link
line, then an indented description line (or a bare blank line). -/
def mdIndexEntry (component : Component) : String :=
  "- [" ++ component.name ++ "](" ++ component.name ++ ".md)\n"
    ++ (if component.description.isEmpty then "\n"
        else "  " ++ component.description ++ "\n\n")

/-- The Markdown index page (src/index.js lines 510-538): title, optional
document description, optional custom content, then the component list. -/
def generateIndexMd (docName docDescription customContent : String)
    (components : List Component) : String :=
  "# " ++ docName ++ "\n\n"
    ++ (if docDescription.isEmpty then "" else docDescription ++ "\n\n")
    ++ (if customContent.isEmpty then "" else customContent ++ "\n\n")
    ++ "## 组件列表\n\n"
    ++ String.join (components.map mdIndexEntry)

/-! ### Generic helper lemmas: string data, infixes, `Option.mapM` -/

theorem sdata_append (a b : String) : (a ++ b).data = a.data ++ b.data := rfl

theorem infix_data_left {x : List Char} {a : String} (b : String) (h : x <:+: a.data) :
    x <:+: (a ++ b).data := by
  obtain ⟨s, t, hst⟩ := h
  exact ⟨s, t ++ b.data, by rw [sdata_append, ← hst]; simp⟩

theorem infix_data_right (a : String) {x : List Char} {b : String} (h : x <:+: b.data) :
    x <:+: (a ++ b).data := by
  obtain ⟨s, t, hst⟩ := h
  exact ⟨a.data ++ s, t, by rw [sdata_append, ← hst]; simp⟩

theorem infix_data_join {s : String} {l : List String} (h : s ∈ l) :
    s.data <:+: (String.join l).data := by
  rw [String.data_join]
  exact List.infix_of_mem_flatten (List.mem_map_of_mem _ h)

theorem mapM_opt_mem {α β : Type} {f : α → Option β} :
    ∀ {l : List α} {ys : List β}, l.mapM f = some ys → ∀ x ∈ l, ∃ y, f x = some y ∧ y ∈ ys := by
  intro l
  induction l with
  | nil => intro ys h x hx; cases hx
  | cons a l ih =>
    intro ys h x hx
    rw [List.mapM_cons] at h
    cases hfa : f a with
    | none => rw [hfa] at h; cases h
    | some y0 =>
      rw [hfa] at h
      cases hml : l.mapM f with
      | none => rw [hml] at h; cases h
      | some ys0 =>
        rw [hml] at h
        cases h
        rcases List.mem_cons.mp hx with hx | hx
        · subst hx
          exact ⟨y0, hfa, List.mem_cons_self _ _⟩
        · obtain ⟨y, hy, hmem⟩ := ih hml x hx
          exact ⟨y, hy, List.mem_cons_of_mem _ hmem⟩

theorem mapM_opt_isSome {α β : Type} {f : α → Option β} :
    ∀ {l : List α}, (∀ x ∈ l, (f x).isSome) → (l.mapM f).isSome := by
  intro l
  induction l with
  | nil => intro _; rfl
  | cons a l ih =>
    intro h
    rw [List.mapM_cons]
    cases hfa : f a with
    | none => have := h a (List.mem_cons_self _ _); rw [hfa] at this; cases this
    | some y =>
      have h2 := ih (fun x hx => h x (List.mem_cons_of_mem _ hx))
      cases hml : l.mapM f with
      | none => rw [hml] at h2; cases h2
      | some ys => rfl

theorem mapM_opt_none {α β : Type} {f : α → Option β} {x : α} :
    ∀ {l : List α}, x ∈ l → f x = none → l.mapM f = none := by
  intro l
  induction l with
  | nil => intro hx; cases hx
  | cons a l ih =>
    intro hx hfx
    rw [List.mapM_cons]
    rcases List.mem_cons.mp hx with hx | hx
    · subst hx
      rw [hfx]; rfl
    · cases hfa : f a with
      | none => rfl
      | some y => rw [ih hx hfx]; rfl

/-! ### A character-wise description of `escapeHtml`

`escChar`/`escList` are proof-side devices (the source function is
`escapeHtml` above): because none of the five replacement strings contains a
character that a later pass rewrites, the sequential global replacements act
independently on each input character. -/

/-- Where a single input character ends up in the escaped output. -/
def escChar (c : Char) : List Char :=
  if c = '&' then "&amp;".data
  else if c = '<' then "&lt;".data
  else if c = '>' then "&gt;".data
  else if c = '"' then "&quot;".data
  else if c = squote then "&#039;".data
  else [c]

/-- Character-wise image of a whole string under the escaping. -/
def escList (l : List Char) : List Char := (l.map escChar).flatten

theorem replaceChar_append (c : Char) (rep : List Char) (a b : List Char) :
    replaceChar c rep (a ++ b) = replaceChar c rep a ++ replaceChar c rep b := by
  induction a with
  | nil => rfl
  | cons x xs ih => simp [replaceChar, ih]

theorem escListChunk (x : Char) :
    replaceChar squote "&#039;".data
      (replaceChar '"' "&quot;".data
        (replaceChar '>' "&gt;".data
          (replaceChar '<' "&lt;".data
            (if x = '&' then "&amp;".data else [x])))) = escChar x := by
  by_cases h1 : x = '&'
  · subst h1; decide
  by_cases h2 : x = '<'
  · subst h2; decide
  by_cases h3 : x = '>'
  · subst h3; decide
  by_cases h4 : x = '"'
  · subst h4; decide
  by_cases h5 : x = squote
  · subst h5; decide
  simp [escChar, replaceChar, h1, h2, h3, h4, h5]

theorem escList_eq (l : List Char) :
    replaceChar squote "&#039;".data
      (replaceChar '"' "&quot;".data
        (replaceChar '>' "&gt;".data
          (replaceChar '<' "&lt;".data
            (replaceChar '&' "&amp;".data l)))) = escList l := by
  induction l with
  | nil => rfl
  | cons x xs ih =>
    have h0 : replaceChar '&' "&amp;".data (x :: xs)
        = (if x = '&' then "&amp;".data else [x]) ++ replaceChar '&' "&amp;".data xs := rfl
    rw [h0]
    simp only [replaceChar_append]
    rw [escListChunk, ih]
    rfl

theorem escapeHtml_data (s : String) : (escapeHtml s).data = escList s.data :=
  escList_eq s.data

theorem escChar_no_raw (x : Char) :
    '<' ∉ escChar x ∧ '>' ∉ escChar x ∧ '"' ∉ escChar x ∧ squote ∉ escChar x := by
  by_cases h1 : x = '&'
  · subst h1; decide
  by_cases h2 : x = '<'
  · subst h2; decide
  by_cases h3 : x = '>'
  · subst h3; decide
  by_cases h4 : x = '"'
  · subst h4; decide
  by_cases h5 : x = squote
  · subst h5; decide
  have hx : escChar x = [x] := by simp [escChar, h1, h2, h3, h4, h5]
  rw [hx]
  simp only [List.mem_singleton]
  exact ⟨fun h => h2 h.symm, fun h => h3 h.symm, fun h => h4 h.symm, fun h => h5 h.symm⟩

theorem escList_no_raw (l : List Char) :
    '<' ∉ escList l ∧ '>' ∉ escList l ∧ '"' ∉ escList l ∧ squote ∉ escList l := by
  induction l with
  | nil => simp [escList]
  | cons x xs ih =>
    have h0 : escList (x :: xs) = escChar x ++ escList xs := rfl
    rw [h0]
    simp only [List.mem_append, not_or]
    obtain ⟨e1, e2, e3, e4⟩ := escChar_no_raw x
    obtain ⟨i1, i2, i3, i4⟩ := ih
    exact ⟨⟨e1, i1⟩, ⟨e2, i2⟩, ⟨e3, i3⟩, ⟨e4, i4⟩⟩

/-- The tails of the five entities that may legitimately follow a `&` in
escaped output. -/
def entityTails : List (List Char) :=
  ["amp;".data, "lt;".data, "gt;".data, "quot;".data, "#039;".data]

/-- Every ampersand in the list opens one of the five escaped entities. -/
def ampOk : List Char → Bool
  | [] => true
  | c :: rest =>
    (!(c == '&') || entityTails.any (fun t => t.isPrefixOf rest)) && ampOk rest

theorem ampOk_chunk (x : Char) (rest : List Char) (h : ampOk rest = true) :
    ampOk (escChar x ++ rest) = true := by
  by_cases h1 : x = '&'
  · subst h1
    simp [escChar, ampOk, entityTails, List.isPrefixOf, h]
  by_cases h2 : x = '<'
  · subst h2
    simp [escChar, ampOk, entityTails, List.isPrefixOf, h]
  by_cases h3 : x = '>'
  · subst h3
    simp [escChar, ampOk, entityTails, List.isPrefixOf, h]
  by_cases h4 : x = '"'
  · subst h4
    simp [escChar, ampOk, entityTails, List.isPrefixOf, h]
  by_cases h5 : x = squote
  · subst h5
    simp [escChar, ampOk, entityTails, List.isPrefixOf, h]
  have hx : escChar x = [x] := by simp [escChar, h1, h2, h3, h4, h5]
  rw [hx]
  have hxamp : (x == '&') = false := by simp [h1]
  simp [ampOk, hxamp, h]

theorem ampOk_escList (l : List Char) : ampOk (escList l) = true := by
  induction l with
  | nil => rfl
  | cons x xs ih =>
    have h0 : escList (x :: xs) = escChar x ++ escList xs := rfl
    rw [h0]
    exact ampOk_chunk x _ ih

/-! ### Claim theorems -/

theorem formatTypeList_eq_map (l : List TypeDesc) (isMarkdown : Bool) :
    formatTypeList l isMarkdown = l.map (fun t => formatType t isMarkdown) := by
  induction l with
  | nil => rfl
  | cons t ts ih => simp [formatTypeList, ih]

/-- C2: a `union` descriptor with a non-empty element list formats as the
recursively formatted elements joined by ` | ` (HTML) or ` \\| ` (Markdown);
any other descriptor formats as its name, empty string when absent. -/
theorem formatType_union_spec (name : Option String) (elements : List TypeDesc) (isMarkdown : Bool) :
    (name = some "union" → elements ≠ [] →
      formatType (.mk name elements) isMarkdown =
        String.intercalate (if isMarkdown then " \\| " else " | ")
          (elements.map (fun t => formatType t isMarkdown)))
    ∧ ((name ≠ some "union" ∨ elements = []) →
      formatType (.mk name elements) isMarkdown = name.getD "") := by
  constructor
  · intro hn he
    rw [formatType, if_pos ⟨hn, by cases elements with
        | nil => exact absurd rfl he
        | cons t ts => simp⟩]
    rw [formatTypeList_eq_map]
  · intro h
    rw [formatType, if_neg]
    rintro ⟨h1, h2⟩
    rcases h with h | h
    · exact h h1
    · subst h; exact h2 rfl

theorem formatType_union_spec_witness :
    formatType (.mk (some "union") [.mk (some "a") [], .mk (some "b") []]) true = "a \\| b"
    ∧ formatType (.mk (some "string") []) false = "string" := by
  constructor
  · rw [(formatType_union_spec (some "union") [.mk (some "a") [], .mk (some "b") []] true).1 rfl
      (by simp)]
    rfl
  · rw [(formatType_union_spec (some "string") [] false).2 (Or.inr rfl)]
    rfl

/-- C7: an override file that exists but is not valid JSON leaves every
configuration field at its built-in default, logging the error; the run
continues (the resolver returns normally). -/
theorem loadConfig_invalid_json_defaults (msg : String) :
    loadConfig (.invalid msg) = (config, ["加载配置文件失败: " ++ msg]) := rfl

/-- C4 (code bug, evaluated): an override setting only `customContent.md`
leaves the resolved `customContent` equal to the override object itself, so
the `html` key is absent rather than keeping its default `""` — the
spread at src/index.js lines 42-45 merges the override with itself because
`Object.assign` at line 38 already replaced `config.customContent`. -/
theorem loadConfig_customContent_merge_bug :
    (loadConfig (.parsed { CustomConfig.empty with
        customContent := some ⟨some "custom.md", none⟩ })).1.customContent
      = ⟨some "custom.md", none⟩
    ∧ config.customContent.html = some ""
    ∧ (loadConfig (.parsed { CustomConfig.empty with
        customContent := some ⟨some "custom.md", none⟩ })).1.customContent.html ≠ some "" := by
  refine ⟨rfl, rfl, ?_⟩
  decide

/-- C9: the renderers, the per-file loop and the index generator are pure
functions, so two evaluations on identical inputs produce identical output
strings. -/
theorem renderers_deterministic (docData : DocData)
    (docName componentName docType outDir : String)
    (files : List (String × Option DocData)) :
    generateComponentMarkdown docData = generateComponentMarkdown docData
    ∧ generateComponentHtml docData docName componentName
        = generateComponentHtml docData docName componentName
    ∧ processFiles docType docName outDir files = processFiles docType docName outDir files
    ∧ ∀ (comps : List Component) (dd cc : String),
        generateIndexMd docName dd cc comps = generateIndexMd docName dd cc comps :=
  ⟨rfl, rfl, rfl, fun _ _ _ => rfl⟩

theorem replaceChar_eq_flatten (c : Char) (rep : List Char) (l : List Char) :
    replaceChar c rep l = (l.map (fun x => if x = c then rep else [x])).flatten := by
  induction l with
  | nil => rfl
  | cons x xs ih => simp [replaceChar, ih]

/-- Scans a character list and checks that every backquote is immediately
preceded by a backslash; `prevSlash` records whether the previous character
was a backslash. -/
def bteFrom (prevSlash : Bool) : List Char → Bool
  | [] => true
  | c :: rest =>
    (if c = backquote then prevSlash else true) && bteFrom (c == '\\') rest

/-- Every backquote in the list is immediately preceded by a backslash
(in particular the list does not start with a backquote). -/
def backticksEscaped (l : List Char) : Bool := bteFrom false l

theorem bteFrom_flatten (l : List Char) :
    ∀ prevSlash : Bool,
      bteFrom prevSlash
        ((l.map (fun x => if x = backquote then ['\\', backquote] else [x])).flatten) = true := by
  induction l with
  | nil => intro prevSlash; rfl
  | cons x xs ih =>
    intro prevSlash
    by_cases hx : x = backquote
    · subst hx
      simp only [List.map_cons, List.flatten_cons, if_pos rfl, List.cons_append,
        List.nil_append]
      show ((if '\\' = backquote then prevSlash else true)
            && ((if backquote = backquote then ('\\' == '\\') else true)
                && bteFrom (backquote == '\\')
                     ((List.map (fun x => if x = backquote then ['\\', backquote] else [x])
                        xs).flatten)))
          = true
      rw [if_neg (by decide), if_pos rfl, Bool.true_and,
        show ('\\' == '\\') = true by decide,
        show (backquote == '\\') = false by decide, Bool.true_and]
      exact ih false
    · simp only [List.map_cons, List.flatten_cons, if_neg hx, List.singleton_append]
      show ((if x = backquote then prevSlash else true)
            && bteFrom (x == '\\')
                 ((List.map (fun x => if x = backquote then ['\\', backquote] else [x])
                    xs).flatten))
          = true
      rw [if_neg hx, Bool.true_and]
      exact ih _

theorem backticksEscaped_replace (s : String) :
    backticksEscaped (replaceCharS backquote "\\`" s).data = true := by
  show bteFrom false (replaceChar backquote "\\`".data s.data) = true
  rw [replaceChar_eq_flatten]
  have hfun : (fun x => if x = backquote then "\\`".data else [x])
      = (fun x => if x = backquote then ['\\', backquote] else [x]) := by
    funext x
    rw [show "\\`".data = ['\\', backquote] by decide]
  rw [hfun]
  exact bteFrom_flatten s.data false

/-- C6: the Markdown default-value cell is the value wrapped in backticks
with every literal backtick prefixed by a backslash (character-wise image),
forming a single span delimited by backticks whose interior backticks are
all backslash-escaped; a prop without a default renders a literal dash; the
cell appears in the prop's table row. -/
theorem md_default_cell_spec (prop : PropDoc) :
    (∀ dv : DefaultValue, prop.defaultValue = some dv →
       mdDefaultCell prop = "`" ++ replaceCharS backquote "\\`" dv.value ++ "`"
       ∧ (replaceCharS backquote "\\`" dv.value).data
           = (dv.value.data.map (fun c => if c = backquote then ['\\', backquote] else [c])).flatten
       ∧ backticksEscaped (replaceCharS backquote "\\`" dv.value).data = true
       ∧ (mdDefaultCell prop).data.head? = some backquote
       ∧ (mdDefaultCell prop).data.getLast? = some backquote)
    ∧ (prop.defaultValue = none → mdDefaultCell prop = "-")
    ∧ (∀ row, mdPropRow prop = some row → (mdDefaultCell prop).data <:+: row.data) := by
  refine ⟨?_, ?_, ?_⟩
  · intro dv hdv
    have hcell : mdDefaultCell prop = "`" ++ replaceCharS backquote "\\`" dv.value ++ "`" := by
      rw [mdDefaultCell, hdv]
    refine ⟨hcell, ?_, backticksEscaped_replace dv.value, ?_, ?_⟩
    · show replaceChar backquote "\\`".data dv.value.data = _
      rw [replaceChar_eq_flatten]
      have hfun : (fun x => if x = backquote then "\\`".data else [x])
          = (fun x => if x = backquote then ['\\', backquote] else [x]) := by
        funext x
        rw [show "\\`".data = ['\\', backquote] by decide]
      rw [hfun]
    · rw [hcell]
      rw [show ("`" ++ replaceCharS backquote "\\`" dv.value ++ "`").data
          = backquote :: ((replaceCharS backquote "\\`" dv.value).data ++ "`".data) from rfl]
      rfl
    · rw [hcell]
      rw [show ("`" ++ replaceCharS backquote "\\`" dv.value ++ "`").data
          = (backquote :: (replaceCharS backquote "\\`" dv.value).data) ++ "`".data from rfl]
      rw [List.getLast?_append]
      · rfl
  · intro h
    rw [mdDefaultCell, h]
  · intro row hrow
    rw [mdPropRow] at hrow
    obtain ⟨ft, hft, hr⟩ := Option.map_eq_some'.mp hrow
    subst hr
    exact infix_data_left _ (infix_data_left _ (infix_data_left _
      (infix_data_right _ List.infix_rfl)))

/-- A concrete prop whose default value contains a backtick. -/
def propEx : PropDoc :=
  ⟨"p", some (.mk (some "string") []), some ⟨"a`b"⟩, some "d"⟩

theorem md_default_cell_spec_witness :
    mdDefaultCell propEx = "`" ++ replaceCharS backquote "\\`" "a`b" ++ "`"
    ∧ backticksEscaped (replaceCharS backquote "\\`" "a`b").data = true
    ∧ (mdDefaultCell propEx).data.getLast? = some backquote := by
  have h := (md_default_cell_spec propEx).1 ⟨"a`b"⟩ rfl
  exact ⟨h.1, h.2.2.1, h.2.2.2.2⟩

theorem isSome_opt_map {α β : Type} (f : α → β) (x : Option α) :
    (Option.map f x).isSome = x.isSome := by
  cases x <;> rfl

/-- C10: the renderers complete (return `some`) whenever every prop carries
a type descriptor, and throw (return `none`) whenever some prop lacks one —
the type formatter dereferences the missing descriptor. -/
theorem renderers_total_iff_props_typed (docData : DocData) (docName componentName : String) :
    ((∀ prop ∈ docData.props, prop.type.isSome) →
       (generateComponentMarkdown docData).isSome
       ∧ (generateComponentHtml docData docName componentName).isSome)
    ∧ (∀ prop ∈ docData.props, prop.type = none →
       generateComponentMarkdown docData = none
       ∧ generateComponentHtml docData docName componentName = none) := by
  constructor
  · intro h
    have hmd : (mdPropsSection docData.props).isSome := by
      rw [mdPropsSection]
      by_cases hp : docData.props.isEmpty
      · rw [if_pos hp]; rfl
      · rw [if_neg hp, isSome_opt_map]
        refine mapM_opt_isSome (fun prop hprop => ?_)
        rw [mdPropRow, isSome_opt_map, formatTypeOpt, isSome_opt_map]
        exact h prop hprop
    have hht : (htmlPropsSection docData.props).isSome := by
      rw [htmlPropsSection]
      by_cases hp : docData.props.isEmpty
      · rw [if_pos hp]; rfl
      · rw [if_neg hp, isSome_opt_map]
        refine mapM_opt_isSome (fun prop hprop => ?_)
        rw [htmlPropRow, isSome_opt_map, formatTypeOpt, isSome_opt_map]
        exact h prop hprop
    constructor
    · rw [generateComponentMarkdown, isSome_opt_map]
      exact hmd
    · rw [generateComponentHtml, isSome_opt_map]
      exact hht
  · intro prop hprop htype
    have hpe : docData.props.isEmpty = false := by
      cases hl : docData.props with
      | nil => rw [hl] at hprop; cases hprop
      | cons a l => rfl
    constructor
    · have hrow : mdPropRow prop = none := by
        rw [mdPropRow, formatTypeOpt, htype]; rfl
      have hsec : mdPropsSection docData.props = none := by
        rw [mdPropsSection, if_neg (by rw [hpe]; exact Bool.false_ne_true),
          mapM_opt_none hprop hrow]
        rfl
      rw [generateComponentMarkdown, hsec]
      rfl
    · have hrow : htmlPropRow prop = none := by
        rw [htmlPropRow, formatTypeOpt, htype]; rfl
      have hsec : htmlPropsSection docData.props = none := by
        rw [htmlPropsSection, if_neg (by rw [hpe]; exact Bool.false_ne_true),
          mapM_opt_none hprop hrow]
        rfl
      rw [generateComponentHtml, hsec]
      rfl

/-- A concrete document whose single prop carries a type descriptor. -/
def docTypedEx : DocData :=
  ⟨"Button", some "A button", ⟨[⟨none, some "<div>a&b</div>"⟩]⟩,
    [⟨"variant", some (.mk (some "string") []), none, some "pd"⟩],
    [], [⟨some "change", [], some "ed"⟩], [⟨"head", some "sd"⟩]⟩

/-- A concrete document whose single prop lacks a type descriptor. -/
def docUntypedEx : DocData :=
  ⟨"Button", none, ⟨[]⟩, [⟨"variant", none, none, none⟩], [], [], []⟩

theorem renderers_total_iff_props_typed_witness :
    ((generateComponentMarkdown docTypedEx).isSome
      ∧ (generateComponentHtml docTypedEx "N" "C").isSome)
    ∧ (generateComponentMarkdown docUntypedEx = none
      ∧ generateComponentHtml docUntypedEx "N" "C" = none) := by
  constructor
  · exact (renderers_total_iff_props_typed docTypedEx "N" "C").1
      (fun prop hprop => by
        rw [List.mem_singleton.mp hprop]
        rfl)
  · exact (renderers_total_iff_props_typed docUntypedEx "N" "C").2
      ⟨"variant", none, none, none⟩ (List.mem_singleton.mpr rfl) rfl

/-- The skip line logged for an invalid component file. -/
def skipLog (file : String) : String := "跳过无效组件文件: " ++ file

/-- The success line logged after writing a component page. -/
def wroteLog (outputFile : String) : String := "已生成组件文档: " ++ outputFile

theorem processFiles_cons_none (docType docName outDir file : String)
    (rest : List (String × Option DocData)) :
    processFiles docType docName outDir ((file, none) :: rest) =
      (processFiles docType docName outDir rest).map fun r =>
        ⟨r.outputs, r.components, skipLog file :: r.logs⟩ := rfl

theorem processFiles_cons_skip (docType docName outDir file : String) (d : DocData)
    (hdn : d.displayName.isEmpty) (rest : List (String × Option DocData)) :
    processFiles docType docName outDir ((file, some d) :: rest) =
      (processFiles docType docName outDir rest).map fun r =>
        ⟨r.outputs, r.components, skipLog file :: r.logs⟩ := by
  show (if d.displayName.isEmpty then _ else _) = _
  rw [if_pos hdn]
  rfl

theorem processFiles_cons_doc (docType docName outDir file : String) (d : DocData)
    (hdn : ¬d.displayName.isEmpty) (rest : List (String × Option DocData)) :
    processFiles docType docName outDir ((file, some d) :: rest) =
      (if docType = "md" then generateComponentMarkdown d
       else generateComponentHtml d docName d.displayName).bind fun content =>
        (processFiles docType docName outDir rest).map fun r =>
          ⟨(pathResolve outDir (d.displayName ++ if docType = "md" then ".md" else ".html"),
              content) :: r.outputs,
           ⟨d.displayName, jsOr d.description ""⟩ :: r.components,
           wroteLog (pathResolve outDir
               (d.displayName ++ if docType = "md" then ".md" else ".html")) :: r.logs⟩ := by
  show (if d.displayName.isEmpty then _ else _) = _
  rw [if_neg hdn]
  rfl

theorem processFiles_append (docType docName outDir : String)
    (xs ys : List (String × Option DocData)) :
    processFiles docType docName outDir (xs ++ ys) =
      (processFiles docType docName outDir xs).bind fun r1 =>
        (processFiles docType docName outDir ys).map fun r2 =>
          ⟨r1.outputs ++ r2.outputs, r1.components ++ r2.components, r1.logs ++ r2.logs⟩ := by
  induction xs with
  | nil =>
    show processFiles docType docName outDir ys
        = (some ⟨[], [], []⟩ : Option RunAcc).bind fun r1 =>
            (processFiles docType docName outDir ys).map fun r2 =>
              ⟨r1.outputs ++ r2.outputs, r1.components ++ r2.components, r1.logs ++ r2.logs⟩
    cases processFiles docType docName outDir ys with
    | none => rfl
    | some r => simp
  | cons fd rest ih =>
    obtain ⟨file, docOpt⟩ := fd
    cases docOpt with
    | none =>
      rw [List.cons_append, processFiles_cons_none, processFiles_cons_none, ih]
      cases processFiles docType docName outDir rest with
      | none => rfl
      | some r1 =>
        cases processFiles docType docName outDir ys with
        | none => rfl
        | some r2 => simp
    | some d =>
      by_cases hdn : d.displayName.isEmpty
      · rw [List.cons_append, processFiles_cons_skip docType docName outDir file d hdn,
          processFiles_cons_skip docType docName outDir file d hdn, ih]
        cases processFiles docType docName outDir rest with
        | none => rfl
        | some r1 =>
          cases processFiles docType docName outDir ys with
          | none => rfl
          | some r2 => simp
      · rw [List.cons_append, processFiles_cons_doc docType docName outDir file d hdn,
          processFiles_cons_doc docType docName outDir file d hdn, ih]
        cases (if docType = "md" then generateComponentMarkdown d
            else generateComponentHtml d docName d.displayName) with
        | none => rfl
        | some content =>
          cases processFiles docType docName outDir rest with
          | none => rfl
          | some r1 =>
            cases processFiles docType docName outDir ys with
            | none => rfl
            | some r2 => simp

/-- C3: a file whose extraction returned no document, or whose document has
no display name, contributes no output file and no index entry — only a log
line naming the file — and the remaining files are processed as if it were
absent. -/
theorem skipped_file_only_logs (docType docName outDir file : String)
    (docOpt : Option DocData) (pre post : List (String × Option DocData))
    (hskip : docOpt = none ∨ ∃ d, docOpt = some d ∧ d.displayName = "") :
    processFiles docType docName outDir (pre ++ (file, docOpt) :: post) =
      (processFiles docType docName outDir pre).bind fun r1 =>
        (processFiles docType docName outDir post).map fun r2 =>
          ⟨r1.outputs ++ r2.outputs, r1.components ++ r2.components,
           r1.logs ++ skipLog file :: r2.logs⟩ := by
  have hmid : processFiles docType docName outDir ((file, docOpt) :: post)
      = (processFiles docType docName outDir post).map fun r =>
          ⟨r.outputs, r.components, skipLog file :: r.logs⟩ := by
    rcases hskip with h | ⟨d, hd, hdn⟩
    · subst h
      exact processFiles_cons_none docType docName outDir file post
    · subst hd
      exact processFiles_cons_skip docType docName outDir file d (by rw [hdn]; rfl) post
  rw [processFiles_append, hmid]
  cases processFiles docType docName outDir pre with
  | none => rfl
  | some r1 =>
    cases processFiles docType docName outDir post with
    | none => rfl
    | some r2 => simp

theorem skipped_file_only_logs_witness :
    processFiles "md" "N" "out" ([] ++ ("bad.vue", none) :: []) =
      (processFiles "md" "N" "out" []).bind fun r1 =>
        (processFiles "md" "N" "out" []).map fun r2 =>
          ⟨r1.outputs ++ r2.outputs, r1.components ++ r2.components,
           r1.logs ++ skipLog "bad.vue" :: r2.logs⟩ :=
  skipped_file_only_logs "md" "N" "out" "bad.vue" none [] [] (Or.inl rfl)

theorem processFiles_outputs_shape (docType docName outDir : String) :
    ∀ (files : List (String × Option DocData)) (r : RunAcc),
      processFiles docType docName outDir files = some r →
      ∀ o ∈ r.outputs, ∃ n : String,
        o.1 = pathResolve outDir (n ++ if docType = "md" then ".md" else ".html") := by
  intro files
  induction files with
  | nil =>
    intro r h o ho
    cases h
    cases ho
  | cons fd rest ih =>
    intro r h o ho
    obtain ⟨file, docOpt⟩ := fd
    cases docOpt with
    | none =>
      rw [processFiles_cons_none] at h
      cases hrest : processFiles docType docName outDir rest with
      | none => rw [hrest] at h; cases h
      | some r0 =>
        rw [hrest] at h
        injection h with h
        subst h
        exact ih r0 hrest o ho
    | some d =>
      by_cases hdn : d.displayName.isEmpty
      · rw [processFiles_cons_skip docType docName outDir file d hdn] at h
        cases hrest : processFiles docType docName outDir rest with
        | none => rw [hrest] at h; cases h
        | some r0 =>
          rw [hrest] at h
          injection h with h
          subst h
          exact ih r0 hrest o ho
      · rw [processFiles_cons_doc docType docName outDir file d hdn] at h
        cases hc : (if docType = "md" then generateComponentMarkdown d
            else generateComponentHtml d docName d.displayName) with
        | none => rw [hc] at h; cases h
        | some content =>
          rw [hc] at h
          cases hrest : processFiles docType docName outDir rest with
          | none => rw [hrest] at h; cases h
          | some r0 =>
            rw [hrest] at h
            injection h with h
            subst h
            rcases List.mem_cons.mp ho with ho | ho
            · exact ⟨d.displayName, by rw [ho]⟩
            · exact ih r0 hrest o ho

theorem suffix_data_right (a : String) {x : List Char} {b : String} (h : x <:+ b.data) :
    x <:+ (a ++ b).data := by
  obtain ⟨t, ht⟩ := h
  exact ⟨a.data ++ t, by rw [sdata_append, ← ht, List.append_assoc]⟩

/-- C5: an override whose `docType` is `"xml"` resolves to the default
`html` with a warning logged, and every output file of a run at the
resolved type has the `.html` extension. -/
theorem invalid_docType_falls_back (customConfig : CustomConfig)
    (hxml : customConfig.docType = some "xml") :
    (loadConfig (.parsed customConfig)).1.docType = "html"
    ∧ "无效的docType配置: xml，将使用默认值html" ∈ (loadConfig (.parsed customConfig)).2
    ∧ ∀ (docName outDir : String) (files : List (String × Option DocData)) (r : RunAcc),
        processFiles (loadConfig (.parsed customConfig)).1.docType docName outDir files
            = some r →
        ∀ o ∈ r.outputs, ".html".data <:+ o.1.data := by
  have hbase : (loadConfig (.parsed customConfig)).1.docType = "html"
      ∧ "无效的docType配置: xml，将使用默认值html" ∈ (loadConfig (.parsed customConfig)).2 := by
    cases hcc : customConfig.customContent with
    | none => simp [loadConfig, objectAssign, hxml, hcc]
    | some occ => simp [loadConfig, objectAssign, hxml, hcc]
  refine ⟨hbase.1, hbase.2, ?_⟩
  intro docName outDir files r h o ho
  rw [hbase.1] at h
  obtain ⟨n, hn⟩ := processFiles_outputs_shape "html" docName outDir files r h o ho
  rw [hn]
  show ".html".data <:+ ((outDir ++ "/") ++ (n ++ ".html")).data
  exact suffix_data_right _ (suffix_data_right _ List.suffix_rfl)

/-- A concrete override whose `docType` is the unrecognized `"xml"`. -/
def ccXmlEx : CustomConfig := { CustomConfig.empty with docType := some "xml" }

theorem invalid_docType_falls_back_witness :
    (loadConfig (.parsed ccXmlEx)).1.docType = "html"
    ∧ "无效的docType配置: xml，将使用默认值html" ∈ (loadConfig (.parsed ccXmlEx)).2
    ∧ ∀ (docName outDir : String) (files : List (String × Option DocData)) (r : RunAcc),
        processFiles (loadConfig (.parsed ccXmlEx)).1.docType docName outDir files = some r →
        ∀ o ∈ r.outputs, ".html".data <:+ o.1.data :=
  invalid_docType_falls_back ccXmlEx rfl

/-- The index entry the main loop records for a successfully processed
file, `none` for a skipped one. -/
def successEntry (fd : String × Option DocData) : Option Component :=
  match fd.2 with
  | some d =>
    if d.displayName.isEmpty then none
    else some ⟨d.displayName, jsOr d.description ""⟩
  | none => none

theorem processFiles_components (docType docName outDir : String) :
    ∀ (files : List (String × Option DocData)) (r : RunAcc),
      processFiles docType docName outDir files = some r →
      r.components = files.filterMap successEntry := by
  intro files
  induction files with
  | nil =>
    intro r h
    cases h
    rfl
  | cons fd rest ih =>
    intro r h
    obtain ⟨file, docOpt⟩ := fd
    cases docOpt with
    | none =>
      rw [processFiles_cons_none] at h
      cases hrest : processFiles docType docName outDir rest with
      | none => rw [hrest] at h; cases h
      | some r0 =>
        rw [hrest] at h
        injection h with h
        subst h
        show r0.components = List.filterMap successEntry ((file, none) :: rest)
        rw [List.filterMap_cons_none rfl]
        exact ih r0 hrest
    | some d =>
      by_cases hdn : d.displayName.isEmpty
      · rw [processFiles_cons_skip docType docName outDir file d hdn] at h
        cases hrest : processFiles docType docName outDir rest with
        | none => rw [hrest] at h; cases h
        | some r0 =>
          rw [hrest] at h
          injection h with h
          subst h
          show r0.components = List.filterMap successEntry ((file, some d) :: rest)
          rw [List.filterMap_cons_none (by simp [successEntry, hdn])]
          exact ih r0 hrest
      · rw [processFiles_cons_doc docType docName outDir file d hdn] at h
        cases hc : (if docType = "md" then generateComponentMarkdown d
            else generateComponentHtml d docName d.displayName) with
        | none => rw [hc] at h; cases h
        | some content =>
          rw [hc] at h
          cases hrest : processFiles docType docName outDir rest with
          | none => rw [hrest] at h; cases h
          | some r0 =>
            rw [hrest] at h
            injection h with h
            subst h
            show ⟨d.displayName, jsOr d.description ""⟩ :: r0.components
                = List.filterMap successEntry ((file, some d) :: rest)
            have hse : successEntry (file, some d)
                = some ⟨d.displayName, jsOr d.description ""⟩ := by
              simp [successEntry, hdn]
            rw [List.filterMap_cons_some hse]
            rw [ih r0 hrest]

/-- C8: the index lists exactly the successfully processed components in
processing order (the input order minus skipped files), and each Markdown
entry is the bulleted link line followed by an indented description line
when the component has one. -/
theorem index_lists_processed_components (docType docName outDir : String)
    (files : List (String × Option DocData)) (r : RunAcc)
    (h : processFiles docType docName outDir files = some r)
    (docDescription customContent : String) :
    r.components = files.filterMap successEntry
    ∧ generateIndexMd docName docDescription customContent r.components
        = "# " ++ docName ++ "\n\n"
          ++ (if docDescription.isEmpty then "" else docDescription ++ "\n\n")
          ++ (if customContent.isEmpty then "" else customContent ++ "\n\n")
          ++ "## 组件列表\n\n"
          ++ String.join (r.components.map mdIndexEntry)
    ∧ ∀ component : Component,
        mdIndexEntry component
          = "- [" ++ component.name ++ "](" ++ component.name ++ ".md)\n"
            ++ (if component.description.isEmpty then "\n"
                else "  " ++ component.description ++ "\n\n") :=
  ⟨processFiles_components docType docName outDir files r h, rfl, fun _ => rfl⟩

/-- A concrete batch: one well-formed component file and one file whose
extraction failed. -/
def filesEx : List (String × Option DocData) :=
  [("a.vue", some docTypedEx), ("bad.vue", none)]

/-- The run result on `filesEx` (defined so the witness can name it). -/
def runEx : RunAcc := (processFiles "md" "N" "out" filesEx).getD ⟨[], [], []⟩

theorem index_lists_processed_components_witness :
    runEx.components = filesEx.filterMap successEntry
    ∧ generateIndexMd "N" "" "" runEx.components
        = "# " ++ "N" ++ "\n\n"
          ++ (if ("" : String).isEmpty then "" else "" ++ "\n\n")
          ++ (if ("" : String).isEmpty then "" else "" ++ "\n\n")
          ++ "## 组件列表\n\n"
          ++ String.join (runEx.components.map mdIndexEntry)
    ∧ ∀ component : Component,
        mdIndexEntry component
          = "- [" ++ component.name ++ "](" ++ component.name ++ ".md)\n"
            ++ (if component.description.isEmpty then "\n"
                else "  " ++ component.description ++ "\n\n") :=
  index_lists_processed_components "md" "N" "out" filesEx runEx rfl "" ""

/-- C1: in every rendered HTML page, each example's code content appears
inside the `<pre><code>` block only through `escapeHtml` — whose output
contains none of `< > \" '` and whose every `&` opens one of the five
entities — while the component description and the prop/event/slot
description cells are embedded verbatim, unescaped. -/
theorem html_escapes_code_not_descriptions (docData : DocData)
    (docName componentName out : String)
    (hout : generateComponentHtml docData docName componentName = some out) :
    (∀ p ∈ docData.tags.examples.enum,
       ("<pre class=\"code-block\"><code>" ++ escapeHtml (jsOr p.2.content "")
         ++ "</code></pre>").data <:+: out.data)
    ∧ (∀ s : String,
        ('<' ∉ (escapeHtml s).data ∧ '>' ∉ (escapeHtml s).data
          ∧ '"' ∉ (escapeHtml s).data ∧ squote ∉ (escapeHtml s).data)
        ∧ ampOk (escapeHtml s).data = true)
    ∧ (∀ s : String, docData.description = some s → s.isEmpty = false →
        ("<div class=\"description\">" ++ s ++ "</div>").data <:+: out.data)
    ∧ (∀ prop ∈ docData.props, ∀ s : String,
        prop.description = some s → s.isEmpty = false → s.data <:+: out.data)
    ∧ (∀ event ∈ docData.events, ∀ s : String,
        event.description = some s → s.isEmpty = false → s.data <:+: out.data)
    ∧ (∀ slot ∈ docData.slots, ∀ s : String,
        slot.description = some s → s.isEmpty = false → s.data <:+: out.data) := by
  cases hps : htmlPropsSection docData.props with
  | none =>
    rw [generateComponentHtml, hps] at hout
    cases hout
  | some propsSection =>
    rw [generateComponentHtml, hps, Option.map_some'] at hout
    have hout2 : out
        = htmlHeader docName componentName docData.displayName
          ++ htmlDescSection docData.description
          ++ htmlExamplesSection docData.tags.examples
          ++ propsSection
          ++ htmlExposeSection docData.expose
          ++ htmlEventsSection docData.events
          ++ htmlSlotsSection docData.slots
          ++ "\n</body>\n</html>" := (Option.some.inj hout).symm
    refine ⟨?_, ?_, ?_, ?_, ?_, ?_⟩
    · -- examples
      intro p hp
      have hne : docData.tags.examples.isEmpty = false := by
        cases hl : docData.tags.examples with
        | nil => rw [hl] at hp; cases hp
        | cons a l => rfl
      have hEsec : htmlExamplesSection docData.tags.examples
          = "<h2>组件示例</h2>"
            ++ String.join (docData.tags.examples.enum.map htmlExampleBlock) := by
        rw [htmlExamplesSection, if_neg (by rw [hne]; exact Bool.false_ne_true)]
      have hblock : ("<pre class=\"code-block\"><code>" ++ escapeHtml (jsOr p.2.content "")
          ++ "</code></pre>").data <:+: (htmlExampleBlock p).data :=
        infix_data_left _ (infix_data_right _ List.infix_rfl)
      have hjoin := infix_data_join (List.mem_map_of_mem htmlExampleBlock hp)
      have hE := hblock.trans hjoin
      rw [hout2]
      exact infix_data_left _ (infix_data_left _ (infix_data_left _ (infix_data_left _
        (infix_data_left _ (infix_data_right _ (by rw [hEsec]; exact infix_data_right _ hE))))))
    · -- escaping facts
      intro s
      rw [escapeHtml_data]
      obtain ⟨h1, h2, h3, h4⟩ := escList_no_raw s.data
      exact ⟨⟨h1, h2, h3, h4⟩, ampOk_escList s.data⟩
    · -- component description, verbatim
      intro s hd hne
      have hdsec : htmlDescSection docData.description
          = "<div class=\"description\">" ++ s ++ "</div>" := by
        rw [hd, htmlDescSection]
        simp [jsTruthy, hne]
      rw [hout2]
      exact infix_data_left _ (infix_data_left _ (infix_data_left _ (infix_data_left _
        (infix_data_left _ (infix_data_left _ (infix_data_right _
          (by rw [hdsec])))))))
    · -- prop descriptions, verbatim
      intro prop hp s hd hne
      have hpe : docData.props.isEmpty = false := by
        cases hl : docData.props with
        | nil => rw [hl] at hp; cases hp
        | cons a l => rfl
      rw [htmlPropsSection, if_neg (by rw [hpe]; exact Bool.false_ne_true)] at hps
      obtain ⟨rows, hrows, hg⟩ := Option.map_eq_some'.mp hps
      obtain ⟨row, hrow, hrowmem⟩ := mapM_opt_mem hrows prop hp
      rw [htmlPropRow] at hrow
      obtain ⟨ft, hft, hrw⟩ := Option.map_eq_some'.mp hrow
      have hod : orDash prop.description = s := by
        rw [hd]
        simp [orDash, jsOr, hne]
      have hsrow : s.data <:+: row.data := by
        rw [← hrw]
        exact infix_data_left _ (infix_data_right _ (by rw [hod]))
      have hjoin : row.data <:+: (String.join rows).data := infix_data_join hrowmem
      have hsec : s.data <:+: propsSection.data := by
        rw [← hg]
        exact infix_data_left _ (infix_data_right _ (hsrow.trans hjoin))
      rw [hout2]
      exact infix_data_left _ (infix_data_left _ (infix_data_left _ (infix_data_left _
        (infix_data_right _ hsec))))
    · -- event descriptions, verbatim
      intro event he s hd hne
      have hve : docData.events.isEmpty = false := by
        cases hl : docData.events with
        | nil => rw [hl] at he; cases he
        | cons a l => rfl
      have hVsec : htmlEventsSection docData.events
          = "\n        <h2>Events</h2>\n        <table>\n            <tr>\n                <th>名称</th>\n                <th>参数</th>\n                <th>描述</th>\n            </tr>"
            ++ String.join (docData.events.map htmlEventRow) ++ "</table>" := by
        rw [htmlEventsSection, if_neg (by rw [hve]; exact Bool.false_ne_true)]
      have hod : orDash event.description = s := by
        rw [hd]
        simp [orDash, jsOr, hne]
      have hsrow : s.data <:+: (htmlEventRow event).data := by
        rw [htmlEventRow]
        exact infix_data_left _ (infix_data_right _ (by rw [hod]))
      have hjoin := infix_data_join (List.mem_map_of_mem htmlEventRow he)
      have hsec : s.data <:+: (htmlEventsSection docData.events).data := by
        rw [hVsec]
        exact infix_data_left _ (infix_data_right _ (hsrow.trans hjoin))
      rw [hout2]
      exact infix_data_left _ (infix_data_left _ (infix_data_right _ hsec))
    · -- slot descriptions, verbatim
      intro slot hs s hd hne
      have hse : docData.slots.isEmpty = false := by
        cases hl : docData.slots with
        | nil => rw [hl] at hs; cases hs
        | cons a l => rfl
      have hSsec : htmlSlotsSection docData.slots
          = "\n        <h2>Slots</h2>\n        <table>\n            <tr>\n                <th>名称</th>\n                <th>描述</th>\n            </tr>"
            ++ String.join (docData.slots.map htmlSlotRow) ++ "</table>" := by
        rw [htmlSlotsSection, if_neg (by rw [hse]; exact Bool.false_ne_true)]
      have hod : orDash slot.description = s := by
        rw [hd]
        simp [orDash, jsOr, hne]
      have hsrow : s.data <:+: (htmlSlotRow slot).data := by
        rw [htmlSlotRow]
        exact infix_data_left _ (infix_data_right _ (by rw [hod]))
      have hjoin := infix_data_join (List.mem_map_of_mem htmlSlotRow hs)
      have hsec : s.data <:+: (htmlSlotsSection docData.slots).data := by
        rw [hSsec]
        exact infix_data_left _ (infix_data_right _ (hsrow.trans hjoin))
      rw [hout2]
      exact infix_data_left _ (infix_data_right _ hsec)

/-- The HTML page rendered for `docTypedEx` (named so the witness can state
facts about it). -/
def outC1Ex : String := (generateComponentHtml docTypedEx "N" "C").getD ""

theorem html_escapes_code_not_descriptions_witness :
    (∀ p ∈ docTypedEx.tags.examples.enum,
       ("<pre class=\"code-block\"><code>" ++ escapeHtml (jsOr p.2.content "")
         ++ "</code></pre>").data <:+: outC1Ex.data)
    ∧ (∀ s : String,
        ('<' ∉ (escapeHtml s).data ∧ '>' ∉ (escapeHtml s).data
          ∧ '"' ∉ (escapeHtml s).data ∧ squote ∉ (escapeHtml s).data)
        ∧ ampOk (escapeHtml s).data = true)
    ∧ (∀ s : String, docTypedEx.description = some s → s.isEmpty = false →
        ("<div class=\"description\">" ++ s ++ "</div>").data <:+: outC1Ex.data)
    ∧ (∀ prop ∈ docTypedEx.props, ∀ s : String,
        prop.description = some s → s.isEmpty = false → s.data <:+: outC1Ex.data)
    ∧ (∀ event ∈ docTypedEx.events, ∀ s : String,
        event.description = some s → s.isEmpty = false → s.data <:+: outC1Ex.data)
    ∧ (∀ slot ∈ docTypedEx.slots, ∀ s : String,
        slot.description = some s → s.isEmpty = false → s.data <:+: outC1Ex.data) :=
  html_escapes_code_not_descriptions docTypedEx "N" "C" outC1Ex rfl

end VueDocgen
